import Mathlib

/-!
# Reconstruction: the PCL wrapper (`PCLWrapper.cpp`)

A shallow embedding of `src/Reconstruction/SupportFiles/PCL/PCLWrapper.cpp`.

* Clouds and C arrays are lists; an array read past the end is an error.
* A call whose C++ behaviour is undefined (integer division by zero, a read past the end of
  an input array, overflow of the `int` running index, a negative frame length) has the
  result `none`.
* The algorithms of the Point Cloud Library that the wrapper calls (statistical outlier
  removal, normal estimation, Poisson reconstruction) are not part of the repository; they are
  the fields of the structure `PCL`, and every theorem holds for all of them unless it states
  a hypothesis about them.
* `D` is the scalar type of the wrapper's own structures (declared in `PCLWrapper.hpp`, which
  is not among the sources) and `F` is the scalar type of the library's points; the implicit
  conversions at each coordinate assignment are the fields `narrow` and `widen` of `PCL`.
-/

namespace Reconstruction

/-! ## Data model -/

/-- The wrapper's point type `PCLPoint3D`: used for points, normals and viewpoints. -/
structure PCLPoint3D (D : Type) where
  x : D
  y : D
  z : D
deriving DecidableEq, Repr

/-- The library's `pcl::PointXYZ`. -/
structure PointXYZ (F : Type) where
  x : F
  y : F
  z : F
deriving DecidableEq, Repr

/-- The library's `pcl::Normal`. -/
structure Normal (F : Type) where
  normal_x : F
  normal_y : F
  normal_z : F
  curvature : F
deriving DecidableEq, Repr

/-- The library's `pcl::PointNormal`: a position with its normal. -/
structure PointNormal (F : Type) where
  x : F
  y : F
  z : F
  normal_x : F
  normal_y : F
  normal_z : F
  curvature : F
deriving DecidableEq, Repr

/-- The library's `pcl::Vertices`: the vertex indices of one polygon. -/
structure Vertices where
  vertices : List Nat
deriving DecidableEq, Repr

/-- The library's `pcl::PolygonMesh`, with its vertex cloud already read as `PointXYZ`
(`fromPCLPointCloud2` only changes the storage format). -/
structure PolygonMesh (F : Type) where
  cloud : List (PointXYZ F)
  polygons : List Vertices
deriving DecidableEq, Repr

/-- The wrapper's input `PCLPointCloud`: a flat point buffer shared by `numFrames` frames. -/
structure PCLPointCloud (D : Type) where
  numPoints : Int
  numFrames : Nat
  points : List (PCLPoint3D D)
  pointFrameLengths : List Int
  viewpoints : List (PCLPoint3D D)
deriving DecidableEq, Repr

/-- The wrapper's output `PCLPointNormalCloud`. -/
structure PCLPointNormalCloud (D : Type) where
  numPoints : Int
  points : List (PCLPoint3D D)
  normals : List (PCLPoint3D D)
  numFrames : Nat
  pointFrameLengths : List Int
  viewpoints : List (PCLPoint3D D)
deriving DecidableEq, Repr

/-- The wrapper's triangle `PCLPolygon`. -/
structure PCLPolygon where
  v1 : Nat
  v2 : Nat
  v3 : Nat
deriving DecidableEq, Repr

/-- The wrapper's output `PCLMesh`. -/
structure PCLMesh (D : Type) where
  numPoints : Nat
  numFaces : Nat
  points : List (PCLPoint3D D)
  polygons : List PCLPolygon
deriving DecidableEq, Repr

/-- The Point Cloud Library as the wrapper sees it. The three algorithms are parameters:
`sorXYZ meanK stddevMulThresh cloud` and `sorPointNormal` are
`StatisticalOutlierRemoval::filter` after `setMeanK` and `setStddevMulThresh`;
`normalEstimation threads kSearch (vx, vy, vz) cloud` is `NormalEstimationOMP::compute`;
`poisson depth pointWeight samplesPerNode cloud` is `Poisson::reconstruct`.
`narrow` and `widen` are the scalar conversions between the wrapper's structures and the
library's points. -/
structure PCL (D F : Type) where
  narrow : D → F
  widen : F → D
  sorXYZ : Int → ℚ → List (PointXYZ F) → List (PointXYZ F)
  sorPointNormal : Int → ℚ → List (PointNormal F) → List (PointNormal F)
  normalEstimation : Nat → Nat → F × F × F → List (PointXYZ F) → List (Normal F)
  poisson : Nat → ℚ → ℚ → List (PointNormal F) → PolygonMesh F

/-- The running state of the frame loop of `constructPointNormalCloud`: the index into the
flat input buffer and the cloud built so far. -/
structure LoopState (F : Type) where
  currentPointsIdx : Nat
  pointCloud : List (PointNormal F)
deriving DecidableEq, Repr

variable {D F : Type}

/-- The position of an oriented point. -/
def PointNormal.toXYZ (e : PointNormal F) : PointXYZ F := ⟨e.x, e.y, e.z⟩

/-- The normal of an oriented point. -/
def PointNormal.toNormal (e : PointNormal F) : Normal F :=
  ⟨e.normal_x, e.normal_y, e.normal_z, e.curvature⟩

/-! ## `computeNormals` (lines 16-29) -/

/-- Normal estimation for one cloud: 8 threads, 10 nearest neighbours, the viewpoint handed
over coordinate by coordinate. -/
def computeNormals (lib : PCL D F) (pointCloud : List (PointXYZ F)) (viewpoint : PCLPoint3D D) :
    List (Normal F) :=
  lib.normalEstimation 8 10 (lib.narrow viewpoint.x, lib.narrow viewpoint.y, lib.narrow viewpoint.z)
    pointCloud

/-! ## `filterPointCloudPerFrame` (lines 31-40) -/

/-- The C++ cast `(int) n` of an unsigned size: the value modulo `2 ^ 32`, read as a signed
32-bit integer. -/
def castInt (n : Nat) : Int :=
  if n % 2 ^ 32 < 2 ^ 31 then ((n % 2 ^ 32 : Nat) : Int) else ((n % 2 ^ 32 : Nat) : Int) - 2 ^ 32

/-- The argument of `setMeanK` on line 35: `(int) size - 1`. (The subtraction overflows `int`
only for a cloud of `2 ^ 31` points modulo `2 ^ 32`; no frame built by
`constructPointNormalCloud` is that long.) -/
def meanK (size : Nat) : Int := castInt size - 1

/-- The argument of `setStddevMulThresh` on line 36: `50 / size` on unsigned integers.
Division by zero is undefined. -/
def stddevMulThresh (size : Nat) : Option Nat :=
  if size = 0 then none else some (50 / size)

/-- The per-frame denoiser: the library filter with `meanK = size - 1` and multiplier
`50 / size` (an unsigned integer, converted to `double` at the call). -/
def filterPointCloudPerFrame (lib : PCL D F) (pointCloud : List (PointXYZ F)) :
    Option (List (PointXYZ F)) :=
  match stddevMulThresh pointCloud.length with
  | none => none
  | some t => some (lib.sorXYZ (meanK pointCloud.length) (t : ℚ) pointCloud)

/-! ## `constructPointNormalCloud` (lines 42-82) -/

/-- Modelled from the spec: the pairing of each surviving position with its normal
(section 4.3). It is the library's `concatenateFields`, whose code is not among the sources:
point `i` of the output has the position of point `i` of the first cloud and the normal of
point `i` of the second; when the two sizes differ the library reports an error and leaves
the output cloud as it was (empty). -/
def concatenateFields (cloud1 : List (PointXYZ F)) (cloud2 : List (Normal F)) :
    List (PointNormal F) :=
  if cloud1.length ≠ cloud2.length then []
  else List.zipWith
    (fun p n => ⟨p.x, p.y, p.z, n.normal_x, n.normal_y, n.normal_z, n.curvature⟩) cloud1 cloud2

/-- The coordinate copy of lines 63-65. -/
def toPointXYZ (lib : PCL D F) (p : PCLPoint3D D) : PointXYZ F :=
  ⟨lib.narrow p.x, lib.narrow p.y, lib.narrow p.z⟩

/-- The inner loop of lines 62-66, with `remaining = framePointCloudSize - i` iterations to
go: each iteration reads `points[currentPointsIdx]` into the next slot of the frame cloud and
increments the `int` index. -/
def copyFramePoints (lib : PCL D F) (points : List (PCLPoint3D D)) :
    Nat → Nat → List (PointXYZ F) → Option (List (PointXYZ F) × Nat)
  | 0, currentPointsIdx, tempPointCloud => some (tempPointCloud, currentPointsIdx)
  | remaining + 1, currentPointsIdx, tempPointCloud =>
    match points[currentPointsIdx]? with
    | none => none
    | some p =>
      if currentPointsIdx + 1 < 2 ^ 31 then
        copyFramePoints lib points remaining (currentPointsIdx + 1)
          (tempPointCloud ++ [toPointXYZ lib p])
      else none

/-- The body of the frame loop (lines 54-77) for frame `frameIdx`. -/
def frameBody (lib : PCL D F) (c : PCLPointCloud D) (frameIdx : Nat) (st : LoopState F) :
    Option (LoopState F) :=
  match c.pointFrameLengths[frameIdx]? with
  | none => none
  | some framePointCloudSize =>
    if framePointCloudSize < 0 then none
    else
      match copyFramePoints lib c.points framePointCloudSize.toNat st.currentPointsIdx [] with
      | none => none
      | some (tempPointCloud, currentPointsIdx) =>
        match filterPointCloudPerFrame lib tempPointCloud with
        | none => none
        | some tempFilteredPointCloud =>
          match c.viewpoints[frameIdx]? with
          | none => none
          | some viewpoint =>
            some ⟨currentPointsIdx,
              st.pointCloud ++ concatenateFields tempFilteredPointCloud
                (computeNormals lib tempFilteredPointCloud viewpoint)⟩

/-- The state of the frame loop after its first `k` iterations. -/
def loopAfter (lib : PCL D F) (c : PCLPointCloud D) : Nat → Option (LoopState F)
  | 0 => some ⟨0, []⟩
  | k + 1 =>
    match loopAfter lib c k with
    | none => none
    | some st => frameBody lib c k st

/-- The combined oriented cloud: the cloud held when the loop has run over all frames. -/
def constructPointNormalCloud (lib : PCL D F) (c : PCLPointCloud D) :
    Option (List (PointNormal F)) :=
  (loopAfter lib c c.numFrames).map LoopState.pointCloud

/-- The value of `currentPointsIdx` printed on line 79, after the last frame. -/
def lastCurrentPointsIdx (lib : PCL D F) (c : PCLPointCloud D) : Option Nat :=
  (loopAfter lib c c.numFrames).map LoopState.currentPointsIdx

/-! ## `constructPointCloudWithNormalsForTesting` (lines 84-110) -/

/-- The position of an oriented point as a wrapper point (lines 93-95). -/
def positionOf (lib : PCL D F) (e : PointNormal F) : PCLPoint3D D :=
  ⟨lib.widen e.x, lib.widen e.y, lib.widen e.z⟩

/-- The normal of an oriented point as a wrapper point (lines 96-98). -/
def normalOf (lib : PCL D F) (e : PointNormal F) : PCLPoint3D D :=
  ⟨lib.widen e.normal_x, lib.widen e.normal_y, lib.widen e.normal_z⟩

/-- The annotated-cloud output: positions and normals of the combined cloud as two parallel
arrays, `numPoints` cast to `int`, and the frame data of the input. -/
def constructPointCloudWithNormalsForTesting (lib : PCL D F) (c : PCLPointCloud D) :
    Option (PCLPointNormalCloud D) :=
  match constructPointNormalCloud lib c with
  | none => none
  | some pointNormalCloud =>
    some
      { numPoints := castInt pointNormalCloud.length
        points := pointNormalCloud.map (positionOf lib)
        normals := pointNormalCloud.map (normalOf lib)
        numFrames := c.numFrames
        pointFrameLengths := c.pointFrameLengths
        viewpoints := c.viewpoints }

/-! ## `performSurfaceReconstruction` (lines 112-169) -/

/-- The global denoising pass of lines 117-123: `meanK = 50`, multiplier `3`. -/
def globalDenoise (lib : PCL D F) (pointNormalCloud : List (PointNormal F)) :
    List (PointNormal F) :=
  lib.sorPointNormal 50 3 pointNormalCloud

/-- The Poisson reconstruction of lines 127-134: depth 5, point weight 4, 1.5 samples per
node. -/
def poissonReconstruct (lib : PCL D F) (filteredPointCloud : List (PointNormal F)) :
    PolygonMesh F :=
  lib.poisson 5 4 (3 / 2) filteredPointCloud

/-- The vertex copy of lines 148-150. -/
def toPCLPoint3D (lib : PCL D F) (p : PointXYZ F) : PCLPoint3D D :=
  ⟨lib.widen p.x, lib.widen p.y, lib.widen p.z⟩

/-- One iteration of the face loop (lines 156-160): the first three vertex indices of the
polygon; reading a vertex the polygon does not have is an error. -/
def toPCLPolygon (p : Vertices) : Option PCLPolygon :=
  match p.vertices[0]?, p.vertices[1]?, p.vertices[2]? with
  | some a, some b, some c => some ⟨a, b, c⟩
  | _, _, _ => none

/-- The face loop of lines 155-161. -/
def convertPolygons : List Vertices → Option (List PCLPolygon)
  | [] => some []
  | p :: rest =>
    match toPCLPolygon p with
    | none => none
    | some f =>
      match convertPolygons rest with
      | none => none
      | some fs => some (f :: fs)

/-- The mesh output: combined cloud, global denoising, Poisson reconstruction, and the copy
of the mesh into the wrapper's arrays. -/
def performSurfaceReconstruction (lib : PCL D F) (c : PCLPointCloud D) : Option (PCLMesh D) :=
  match constructPointNormalCloud lib c with
  | none => none
  | some pointNormalCloud =>
    let mesh := poissonReconstruct lib (globalDenoise lib pointNormalCloud)
    match convertPolygons mesh.polygons with
    | none => none
    | some meshPolygons =>
      some
        { numPoints := mesh.cloud.length
          numFaces := mesh.polygons.length
          points := mesh.cloud.map (toPCLPoint3D lib)
          polygons := meshPolygons }

/-! ## The frames of the input, by prefix sums of the frame lengths -/

/-- The original length `L_k` of frame `k`. -/
def frameLength (c : PCLPointCloud D) (k : Nat) : Nat := (c.pointFrameLengths.getD k 0).toNat

/-- The prefix sum `P_k`: the sum of the original lengths of frames `0 .. k-1`. -/
def frameOffset (c : PCLPointCloud D) : Nat → Nat
  | 0 => 0
  | k + 1 => frameOffset c k + frameLength c k

/-- The slice of frame `k`: the buffer elements at indices `[P_k, P_k + L_k)`, in order. -/
def frameSlice (lib : PCL D F) (c : PCLPointCloud D) (k : Nat) : List (PointXYZ F) :=
  ((c.points.drop (frameOffset c k)).take (frameLength c k)).map (toPointXYZ lib)

/-- The surviving points of frame `k`: its slice after the per-frame denoiser. -/
def frameSurvivors (lib : PCL D F) (c : PCLPointCloud D) (k : Nat) : List (PointXYZ F) :=
  (filterPointCloudPerFrame lib (frameSlice lib c k)).getD []

/-- The oriented sub-cloud of frame `k`: its surviving points joined with the normals
computed for them from the viewpoint of frame `k`. -/
def frameSubCloud (lib : PCL D F) (c : PCLPointCloud D) (k : Nat) : List (PointNormal F) :=
  match c.viewpoints[k]? with
  | none => []
  | some viewpoint =>
    concatenateFields (frameSurvivors lib c k) (computeNormals lib (frameSurvivors lib c k) viewpoint)

/-- The concatenation of the first `k` per-frame sub-clouds, in frame order. -/
def subCloudsUpTo (lib : PCL D F) (c : PCLPointCloud D) (k : Nat) : List (PointNormal F) :=
  ((List.range k).map (frameSubCloud lib c)).flatten

/-- A structurally valid input: the two per-frame arrays have an entry for every frame, no
frame length is negative, the frames fit in the point buffer, and the total fits an `int`. -/
def ValidShape (c : PCLPointCloud D) : Prop :=
  c.numFrames ≤ c.pointFrameLengths.length ∧ c.numFrames ≤ c.viewpoints.length ∧
    (∀ k < c.numFrames, 0 ≤ c.pointFrameLengths.getD k 0) ∧
    frameOffset c c.numFrames ≤ c.points.length ∧ frameOffset c c.numFrames < 2 ^ 31

instance (c : PCLPointCloud D) : Decidable (ValidShape c) := by
  unfold ValidShape; infer_instance

/-- No frame of the input is empty. -/
def NoEmptyFrame (c : PCLPointCloud D) : Prop :=
  ∀ k < c.numFrames, c.pointFrameLengths.getD k 0 ≠ 0

instance (c : PCLPointCloud D) : Decidable (NoEmptyFrame c) := by
  unfold NoEmptyFrame; infer_instance

/-! ## The library algorithms as the specification describes them -/

/-- Modelled from the spec: the rejection threshold `μ + t·σ` of the statistical-outlier
filter (section 4.1). The filter is the library's `StatisticalOutlierRemoval`, whose code is
not among the sources. -/
def rejectionThreshold (μ σ t : ℚ) : ℚ := μ + t * σ

/-- Modelled from the spec: the mean distance from the point at index `i` to its `k` nearest
neighbours among the other points (section 4.1); `dist` is the distance between two
positions. The neighbour search is the library's, not among the sources. -/
def meanNeighborDistance (dist : PointXYZ F → PointXYZ F → ℚ) (k : Nat)
    (positions : List (PointXYZ F)) (i : Nat) (p : PointXYZ F) : ℚ :=
  ((((positions.eraseIdx i).map (dist p)).insertionSort (· ≤ ·)).take k).sum / k

/-- Modelled from the spec: statistical outlier removal (section 4.1, and 4.4 for oriented
points, whose positions `pos` are used). For each point the mean distance to its `k` nearest
neighbours is computed; `μ` is the mean and `σ` the standard deviation (`stddev`) of these
values; points whose value exceeds `μ + t·σ` are discarded. The filter is the library's
`StatisticalOutlierRemoval`, whose code is not among the sources. -/
def statisticalOutlierRemoval {P : Type} (pos : P → PointXYZ F)
    (dist : PointXYZ F → PointXYZ F → ℚ) (stddev : List ℚ → ℚ) (k : Int) (t : ℚ)
    (cloud : List P) : List P :=
  let positions := cloud.map pos
  let ds := positions.enum.map (fun ip => meanNeighborDistance dist k.toNat positions ip.1 ip.2)
  let μ := ds.sum / ds.length
  let σ := stddev ds
  ((cloud.zip ds).filter (fun pd => decide (¬ rejectionThreshold μ σ t < pd.2))).map Prod.fst

/-- The dot product of a normal with the direction from a point to the viewpoint. -/
def dotToward [Mul F] [Add F] [Sub F] (viewpoint : F × F × F) (p : PointXYZ F) (n : Normal F) :
    F :=
  n.normal_x * (viewpoint.1 - p.x) + n.normal_y * (viewpoint.2.1 - p.y)
    + n.normal_z * (viewpoint.2.2 - p.z)

/-- Modelled from the spec: the orientation step of the normal estimator (section 4.2), a
sign flip if the raw plane normal points away from the viewpoint. The estimator is the
library's `NormalEstimationOMP`, whose code is not among the sources. -/
def orientTowardViewpoint [LinearOrderedRing F] (viewpoint : F × F × F) (p : PointXYZ F)
    (n : Normal F) : Normal F :=
  if dotToward viewpoint p n < 0 then ⟨-n.normal_x, -n.normal_y, -n.normal_z, n.curvature⟩
  else n

/-- Modelled from the spec: the normal estimator (section 4.2): for each point a normal of
the plane fitted to its `kSearch` nearest neighbours (`planeNormal`, the eigenvector
analysis, is a parameter), oriented toward the viewpoint. The estimator is the library's
`NormalEstimationOMP`, whose code is not among the sources. -/
def estimateNormals [LinearOrderedRing F] (planeNormal : Nat → List (PointXYZ F) → Nat → Normal F)
    (kSearch : Nat) (viewpoint : F × F × F) (cloud : List (PointXYZ F)) : List (Normal F) :=
  cloud.enum.map
    (fun ip => orientTowardViewpoint viewpoint ip.2 (planeNormal kSearch cloud ip.1))

/-! ## Sample inputs -/

/-- A small library instance over the integers: the per-frame filter keeps the points whose
`x` is at most ten times the multiplier `t` (`x · den t ≤ 10 · num t`), the global filter keeps the points with `z ≥ 0`, the
normal of a point is the vector from it to the viewpoint, and the reconstructor returns the
positions with one triangle when there are at least three of them. -/
def sampleLib : PCL ℤ ℤ where
  narrow := id
  widen := id
  sorXYZ := fun _ t pts => pts.filter (fun p => decide (p.x * (t.den : ℤ) ≤ 10 * t.num))
  sorPointNormal := fun _ _ pts => pts.filter (fun e => decide (0 ≤ e.z))
  normalEstimation := fun _ _ vp pts =>
    pts.map (fun p => ⟨vp.1 - p.x, vp.2.1 - p.y, vp.2.2 - p.z, 0⟩)
  poisson := fun _ _ _ pts =>
    ⟨pts.map PointNormal.toXYZ, if 3 ≤ pts.length then [⟨[0, 1, 2]⟩] else []⟩

/-- Two frames of lengths 2 and 3; the per-frame filter of `sampleLib` removes one point of
each. -/
def sampleCloud : PCLPointCloud ℤ where
  numPoints := 5
  numFrames := 2
  points := [⟨1, 0, 0⟩, ⟨300, 1, 0⟩, ⟨2, 0, 1⟩, ⟨3, 1, 1⟩, ⟨400, 2, 2⟩]
  pointFrameLengths := [2, 3]
  viewpoints := [⟨0, 0, 5⟩, ⟨1, 0, 5⟩]

/-- A frame of three points. -/
def threePoints : List (PointXYZ ℤ) := [⟨1, 0, 0⟩, ⟨165, 0, 0⟩, ⟨200, 0, 0⟩]

/-- Three points on a line, the last one far from the other two. -/
def linePoints : List (PointXYZ ℤ) := [⟨0, 0, 0⟩, ⟨1, 0, 0⟩, ⟨10, 0, 0⟩]

/-- One frame, of length 0. -/
def emptyFrameCloud : PCLPointCloud ℤ where
  numPoints := 0
  numFrames := 1
  points := []
  pointFrameLengths := [0]
  viewpoints := [⟨0, 0, 0⟩]

/-- One frame of one point, which the per-frame filter of `sampleLib` removes. -/
def removedCloud : PCLPointCloud ℤ where
  numPoints := 1
  numFrames := 1
  points := [⟨1000, 0, 0⟩]
  pointFrameLengths := [1]
  viewpoints := [⟨0, 0, 5⟩]

/-- No frames at all. -/
def noFramesCloud : PCLPointCloud ℤ where
  numPoints := 0
  numFrames := 0
  points := []
  pointFrameLengths := []
  viewpoints := []

/-- The taxicab distance, a rational-valued distance for the sample filter. -/
def taxicab (a b : PointXYZ ℤ) : ℚ := ((|a.x - b.x| + |a.y - b.y| + |a.z - b.z| : ℤ) : ℚ)

/-- The mean absolute deviation, a rational-valued spread for the sample filter. -/
def meanAbsDev (ds : List ℚ) : ℚ :=
  (ds.map (fun d => |d - ds.sum / ds.length|)).sum / ds.length

/-- The sample library with the filters and the normal estimator of the specification; the
plane normal is the `z` axis for every point. -/
def specLib : PCL ℤ ℤ where
  narrow := id
  widen := id
  sorXYZ := statisticalOutlierRemoval id taxicab meanAbsDev
  sorPointNormal := statisticalOutlierRemoval PointNormal.toXYZ taxicab meanAbsDev
  normalEstimation := fun _ k vp pts => estimateNormals (fun _ _ _ => ⟨0, 0, 1, 0⟩) k vp pts
  poisson := sampleLib.poisson

/-- The sample library with the normal estimator of the specification; the plane normal is
`(0, 0, -1)` for every point, which points away from a viewpoint above the points. -/
def orientedLib : PCL ℤ ℤ :=
  { sampleLib with
    normalEstimation := fun _ k vp pts => estimateNormals (fun _ _ _ => ⟨0, 0, -1, 0⟩) k vp pts }

/-- A library whose reconstructor returns one vertex whatever its input. -/
def oneVertexLib : PCL ℤ ℤ where
  narrow := id
  widen := id
  sorXYZ := fun _ _ pts => pts
  sorPointNormal := fun _ _ pts => pts
  normalEstimation := sampleLib.normalEstimation
  poisson := fun _ _ _ _ => ⟨[⟨0, 0, 0⟩], []⟩

/-- The triangle read from a polygon: its first three vertex indices. -/
def triangleOf (p : Vertices) : PCLPolygon :=
  ⟨p.vertices.getD 0 0, p.vertices.getD 1 0, p.vertices.getD 2 0⟩

/-! ## Lemmas on the frame loop -/

theorem copyFramePoints_eq (lib : PCL D F) (points : List (PCLPoint3D D)) :
    ∀ (n idx : Nat) (acc : List (PointXYZ F)), idx + n ≤ points.length → idx + n < 2 ^ 31 →
      copyFramePoints lib points n idx acc
        = some (acc ++ ((points.drop idx).take n).map (toPointXYZ lib), idx + n) := by
  intro n
  induction n with
  | zero => intro idx acc _ _; simp [copyFramePoints]
  | succ n ih =>
    intro idx acc hlen hint
    have hidx : idx < points.length := by omega
    have hnext : idx + 1 < 2 ^ 31 := by omega
    rw [copyFramePoints, List.getElem?_eq_getElem hidx]
    simp only [hnext, if_true]
    have hd : points.drop idx = points[idx] :: points.drop (idx + 1) :=
      List.drop_eq_getElem_cons hidx
    rw [ih (idx + 1) _ (by omega) (by omega), hd, List.take_succ_cons, List.map_cons,
      List.append_assoc, List.singleton_append, Nat.add_assoc, Nat.add_comm 1 n]

theorem frameOffset_mono (c : PCLPointCloud D) {j k : Nat} (h : j ≤ k) :
    frameOffset c j ≤ frameOffset c k := by
  induction h with
  | refl => exact Nat.le_refl _
  | step _ ih => exact Nat.le_trans ih (Nat.le_add_right _ _)

theorem filterPointCloudPerFrame_of_pos (lib : PCL D F) (pts : List (PointXYZ F))
    (h : 0 < pts.length) :
    filterPointCloudPerFrame lib pts
      = some (lib.sorXYZ (meanK pts.length) ((50 / pts.length : Nat) : ℚ) pts) := by
  have h0 : pts.length ≠ 0 := by omega
  simp [filterPointCloudPerFrame, stddevMulThresh, h0]

theorem frameSlice_length (lib : PCL D F) (c : PCLPointCloud D) (k : Nat)
    (h : frameOffset c (k + 1) ≤ c.points.length) :
    (frameSlice lib c k).length = frameLength c k := by
  have h1 : frameOffset c k + frameLength c k ≤ c.points.length := h
  simp [frameSlice]
  omega

theorem frameBody_eq (lib : PCL D F) (c : PCLPointCloud D) (hv : ValidShape c)
    (hne : NoEmptyFrame c) (k : Nat) (hk : k < c.numFrames) (cloud : List (PointNormal F)) :
    frameBody lib c k ⟨frameOffset c k, cloud⟩
      = some ⟨frameOffset c (k + 1), cloud ++ frameSubCloud lib c k⟩ := by
  obtain ⟨hlen, hvp, hnn, hbuf, hint⟩ := hv
  have hk1 : k < c.pointFrameLengths.length := by omega
  have hk2 : k < c.viewpoints.length := by omega
  have hmono : frameOffset c (k + 1) ≤ frameOffset c c.numFrames := frameOffset_mono c hk
  have hstep : frameOffset c (k + 1) = frameOffset c k + frameLength c k := rfl
  have hL : c.pointFrameLengths.getD k 0 = c.pointFrameLengths[k] := by
    simp [List.getD, List.getElem?_eq_getElem hk1]
  have hpos : 0 < c.pointFrameLengths[k] := by
    have h1 := hnn k hk
    have h2 := hne k hk
    rw [hL] at h1 h2
    omega
  have hfl : frameLength c k = c.pointFrameLengths[k].toNat := by
    unfold frameLength; rw [hL]
  have hcopy := copyFramePoints_eq lib c.points (frameLength c k) (frameOffset c k) []
    (by omega) (by omega)
  have hslice : (frameSlice lib c k).length = frameLength c k :=
    frameSlice_length lib c k (by omega)
  have hslpos : 0 < (frameSlice lib c k).length := by
    rw [hslice, hfl]; omega
  have hfilter := filterPointCloudPerFrame_of_pos lib (frameSlice lib c k) hslpos
  have hsurv : frameSurvivors lib c k
      = lib.sorXYZ (meanK (frameSlice lib c k).length)
          ((50 / (frameSlice lib c k).length : Nat) : ℚ) (frameSlice lib c k) := by
    simp [frameSurvivors, hfilter]
  have hnotneg : ¬ c.pointFrameLengths[k] < 0 := by omega
  rw [frameBody, List.getElem?_eq_getElem hk1]
  simp only [hnotneg, if_false]
  rw [← hfl, hcopy]
  simp only [List.nil_append]
  have hsl : List.map (toPointXYZ lib) (List.take (frameLength c k)
      (List.drop (frameOffset c k) c.points)) = frameSlice lib c k := rfl
  rw [hsl, hfilter]
  simp only [List.getElem?_eq_getElem hk2]
  simp [frameSubCloud, List.getElem?_eq_getElem hk2, hsurv, hstep]

theorem subCloudsUpTo_succ (lib : PCL D F) (c : PCLPointCloud D) (k : Nat) :
    subCloudsUpTo lib c (k + 1) = subCloudsUpTo lib c k ++ frameSubCloud lib c k := by
  simp [subCloudsUpTo, List.range_succ]

theorem loopAfter_eq (lib : PCL D F) (c : PCLPointCloud D) (hv : ValidShape c)
    (hne : NoEmptyFrame c) :
    ∀ k, k ≤ c.numFrames →
      loopAfter lib c k = some ⟨frameOffset c k, subCloudsUpTo lib c k⟩ := by
  intro k
  induction k with
  | zero => intro _; simp [loopAfter, frameOffset, subCloudsUpTo]
  | succ k ih =>
    intro hk
    rw [loopAfter, ih (by omega)]
    simp only
    rw [frameBody_eq lib c hv hne k (by omega), subCloudsUpTo_succ]

theorem constructPointNormalCloud_eq (lib : PCL D F) (c : PCLPointCloud D) (hv : ValidShape c)
    (hne : NoEmptyFrame c) :
    constructPointNormalCloud lib c = some (subCloudsUpTo lib c c.numFrames) := by
  simp [constructPointNormalCloud, loopAfter_eq lib c hv hne c.numFrames (Nat.le_refl _)]


/-! ## Lemmas on the library operations -/

theorem zipWith_map_toXYZ (c1 : List (PointXYZ F)) :
    ∀ c2 : List (Normal F), c1.length = c2.length →
      (List.zipWith (fun p n => (⟨p.x, p.y, p.z, n.normal_x, n.normal_y, n.normal_z,
        n.curvature⟩ : PointNormal F)) c1 c2).map PointNormal.toXYZ = c1 := by
  induction c1 with
  | nil => intro c2 _; simp
  | cons p ps ih =>
    intro c2 h
    cases c2 with
    | nil => simp at h
    | cons n ns =>
      simp only [List.length_cons, Nat.add_right_cancel_iff] at h
      simp only [List.zipWith_cons_cons, List.map_cons, ih ns h]
      rfl

theorem zipWith_map_toNormal (c1 : List (PointXYZ F)) :
    ∀ c2 : List (Normal F), c1.length = c2.length →
      (List.zipWith (fun p n => (⟨p.x, p.y, p.z, n.normal_x, n.normal_y, n.normal_z,
        n.curvature⟩ : PointNormal F)) c1 c2).map PointNormal.toNormal = c2 := by
  induction c1 with
  | nil => intro c2 h; cases c2 with
    | nil => simp
    | cons n ns => simp at h
  | cons p ps ih =>
    intro c2 h
    cases c2 with
    | nil => simp at h
    | cons n ns =>
      simp only [List.length_cons, Nat.add_right_cancel_iff] at h
      simp only [List.zipWith_cons_cons, List.map_cons, ih ns h]
      rfl

theorem concatenateFields_toXYZ (c1 : List (PointXYZ F)) (c2 : List (Normal F))
    (h : c1.length = c2.length) : (concatenateFields c1 c2).map PointNormal.toXYZ = c1 := by
  simp only [concatenateFields, h, ne_eq, not_true_eq_false, if_false]
  exact zipWith_map_toXYZ c1 c2 h

theorem concatenateFields_toNormal (c1 : List (PointXYZ F)) (c2 : List (Normal F))
    (h : c1.length = c2.length) : (concatenateFields c1 c2).map PointNormal.toNormal = c2 := by
  simp only [concatenateFields, h, ne_eq, not_true_eq_false, if_false]
  exact zipWith_map_toNormal c1 c2 h

theorem concatenateFields_length_le (c1 : List (PointXYZ F)) (c2 : List (Normal F)) :
    (concatenateFields c1 c2).length ≤ c1.length := by
  unfold concatenateFields
  split
  · simp
  · simp only [List.length_zipWith]; omega

theorem concatenateFields_mem (c1 : List (PointXYZ F)) (c2 : List (Normal F))
    (e : PointNormal F) (he : e ∈ concatenateFields c1 c2) :
    (e.toXYZ, e.toNormal) ∈ c1.zip c2 := by
  unfold concatenateFields at he
  split at he
  · simp at he
  · rw [List.zip]
    clear * - he
    induction c1 generalizing c2 with
    | nil => simp at he
    | cons p ps ih =>
      cases c2 with
      | nil => simp at he
      | cons n ns =>
        simp only [List.zipWith_cons_cons, List.mem_cons] at he ⊢
        rcases he with he | he
        · left; subst he; rfl
        · right; exact ih ns he

theorem statisticalOutlierRemoval_sublist {P : Type} (pos : P → PointXYZ F)
    (dist : PointXYZ F → PointXYZ F → ℚ) (stddev : List ℚ → ℚ) (k : Int) (t : ℚ)
    (cloud : List P) :
    (statisticalOutlierRemoval pos dist stddev k t cloud).Sublist cloud := by
  unfold statisticalOutlierRemoval
  simp only
  have hlen : cloud.length ≤ (List.map
      (fun ip => meanNeighborDistance dist k.toNat (List.map pos cloud) ip.1 ip.2)
      (List.map pos cloud).enum).length := by simp
  have hfst := List.map_fst_zip cloud _ hlen
  have hsub := (List.filter_sublist (p := fun pd => decide (¬ rejectionThreshold
      ((List.map (fun ip => meanNeighborDistance dist k.toNat (List.map pos cloud) ip.1 ip.2)
        (List.map pos cloud).enum).sum /
        ((List.map (fun ip => meanNeighborDistance dist k.toNat (List.map pos cloud) ip.1 ip.2)
          (List.map pos cloud).enum).length : ℚ))
      (stddev (List.map
        (fun ip => meanNeighborDistance dist k.toNat (List.map pos cloud) ip.1 ip.2)
        (List.map pos cloud).enum)) t < pd.2))
      (cloud.zip (List.map
        (fun ip => meanNeighborDistance dist k.toNat (List.map pos cloud) ip.1 ip.2)
        (List.map pos cloud).enum))).map Prod.fst
  rw [hfst] at hsub
  exact hsub

theorem dotToward_orient_nonneg [LinearOrderedRing F] (viewpoint : F × F × F) (p : PointXYZ F)
    (n : Normal F) : 0 ≤ dotToward viewpoint p (orientTowardViewpoint viewpoint p n) := by
  unfold orientTowardViewpoint
  split
  · rename_i h
    have h2 : dotToward viewpoint p
        ⟨-n.normal_x, -n.normal_y, -n.normal_z, n.curvature⟩ = -dotToward viewpoint p n := by
      simp only [dotToward, neg_mul]; abel
    rw [h2]
    exact le_of_lt (neg_pos.mpr h)
  · rename_i h
    exact not_lt.mp h

theorem estimateNormals_length [LinearOrderedRing F]
    (planeNormal : Nat → List (PointXYZ F) → Nat → Normal F) (k : Nat) (vp : F × F × F)
    (cloud : List (PointXYZ F)) : (estimateNormals planeNormal k vp cloud).length = cloud.length := by
  simp [estimateNormals]

theorem estimateNormals_oriented [LinearOrderedRing F]
    (planeNormal : Nat → List (PointXYZ F) → Nat → Normal F) (k : Nat) (vp : F × F × F)
    (cloud : List (PointXYZ F)) (pn : PointXYZ F × Normal F)
    (h : pn ∈ cloud.zip (estimateNormals planeNormal k vp cloud)) :
    0 ≤ dotToward vp pn.1 pn.2 := by
  obtain ⟨i, hi, hget⟩ := List.mem_iff_getElem.mp h
  have hi1 : i < cloud.length := by
    simp only [List.length_zip, estimateNormals_length] at hi; omega
  have hpn : pn = (cloud[i], orientTowardViewpoint vp cloud[i] (planeNormal k cloud i)) := by
    rw [← hget]
    simp [estimateNormals, List.getElem_zip]
  rw [hpn]
  exact dotToward_orient_nonneg vp _ _

theorem convertPolygons_eq (ps : List Vertices) (h : ∀ p ∈ ps, p.vertices.length = 3) :
    convertPolygons ps = some (ps.map triangleOf) := by
  induction ps with
  | nil => rfl
  | cons p rest ih =>
    have hp : p.vertices.length = 3 := h p (List.mem_cons_self _ _)
    have hrest := ih (fun q hq => h q (List.mem_cons_of_mem _ hq))
    obtain ⟨vs⟩ := p
    match vs, hp with
    | [a, b, c], _ =>
      simp [convertPolygons, toPCLPolygon, hrest, triangleOf]

theorem frameOffset_eq_sum (c : PCLPointCloud D) (hv : ValidShape c) :
    ∀ k, k ≤ c.numFrames → (frameOffset c k : Int) = (c.pointFrameLengths.take k).sum := by
  intro k
  induction k with
  | zero => intro _; simp [frameOffset]
  | succ k ih =>
    intro hk
    obtain ⟨hlen, _, hnn, _, _⟩ := hv
    have hk1 : k < c.pointFrameLengths.length := by omega
    have hL : c.pointFrameLengths.getD k 0 = c.pointFrameLengths[k] := by
      simp [List.getD, List.getElem?_eq_getElem hk1]
    have h0 := hnn k (by omega)
    rw [hL] at h0
    have hfl : (frameLength c k : Int) = c.pointFrameLengths[k] := by
      unfold frameLength; rw [hL]; exact Int.toNat_of_nonneg h0
    rw [List.take_succ, List.getElem?_eq_getElem hk1]
    simp only [frameOffset, Nat.cast_add, Option.toList_some, List.sum_append, List.sum_cons,
      List.sum_nil, add_zero]
    rw [ih (by omega), hfl]

theorem frameSubCloud_length_le (lib : PCL D F) (c : PCLPointCloud D) (k : Nat)
    (hshrink : ∀ m t pts, (lib.sorXYZ m t pts).length ≤ pts.length) :
    (frameSubCloud lib c k).length ≤ frameLength c k := by
  have hsl : (frameSlice lib c k).length ≤ frameLength c k := by
    simp [frameSlice]
  have hsurv : (frameSurvivors lib c k).length ≤ (frameSlice lib c k).length := by
    unfold frameSurvivors filterPointCloudPerFrame
    cases stddevMulThresh (frameSlice lib c k).length with
    | none => simp
    | some t => simpa using hshrink _ _ _
  unfold frameSubCloud
  cases c.viewpoints[k]? with
  | none => simp
  | some vp =>
    exact Nat.le_trans (concatenateFields_length_le _ _) (Nat.le_trans hsurv hsl)

theorem subCloudsUpTo_length_le (lib : PCL D F) (c : PCLPointCloud D)
    (hshrink : ∀ m t pts, (lib.sorXYZ m t pts).length ≤ pts.length) :
    ∀ k, (subCloudsUpTo lib c k).length ≤ frameOffset c k := by
  intro k
  induction k with
  | zero => simp [subCloudsUpTo, frameOffset]
  | succ k ih =>
    rw [subCloudsUpTo_succ, List.length_append, frameOffset]
    have := frameSubCloud_length_le lib c k hshrink
    omega

theorem subCloudsUpTo_length (lib : PCL D F) (c : PCLPointCloud D) :
    ∀ k, (subCloudsUpTo lib c k).length
      = ((List.range k).map (fun j => (frameSubCloud lib c j).length)).sum := by
  intro k
  induction k with
  | zero => simp [subCloudsUpTo]
  | succ k ih =>
    rw [subCloudsUpTo_succ, List.length_append, ih, List.range_succ]
    simp

theorem loopAfter_none_succ (lib : PCL D F) (c : PCLPointCloud D) (j : Nat)
    (h : loopAfter lib c j = none) : ∀ d, loopAfter lib c (j + d) = none := by
  intro d
  induction d with
  | zero => exact h
  | succ d ih => rw [← Nat.add_assoc, loopAfter, ih]

theorem frameBody_empty_frame (lib : PCL D F) (c : PCLPointCloud D) (k : Nat)
    (hk : c.pointFrameLengths.getD k 0 = 0) (st : LoopState F) : frameBody lib c k st = none := by
  unfold frameBody
  cases hget : c.pointFrameLengths[k]? with
  | none => rfl
  | some L =>
    have hL : L = 0 := by simpa [List.getD, hget] using hk
    subst hL
    simp [copyFramePoints, filterPointCloudPerFrame, stddevMulThresh]

theorem constructPointNormalCloud_empty_frame (lib : PCL D F) (c : PCLPointCloud D) (k : Nat)
    (hk : k < c.numFrames) (hzero : c.pointFrameLengths.getD k 0 = 0) :
    constructPointNormalCloud lib c = none := by
  have hstep : loopAfter lib c (k + 1) = none := by
    rw [loopAfter]
    cases loopAfter lib c k with
    | none => rfl
    | some st => exact frameBody_empty_frame lib c k hzero st
  have hall := loopAfter_none_succ lib c (k + 1) hstep (c.numFrames - (k + 1))
  have hn : k + 1 + (c.numFrames - (k + 1)) = c.numFrames := by omega
  rw [hn] at hall
  simp [constructPointNormalCloud, hall]


theorem frame_in_bounds (lib : PCL D F) (c : PCLPointCloud D) (hv : ValidShape c)
    (hne : NoEmptyFrame c) (k : Nat) (hk : k < c.numFrames) :
    c.pointFrameLengths[k]? = some (frameLength c k : Int) ∧ 0 < frameLength c k
      ∧ frameOffset c k + frameLength c k ≤ c.points.length
      ∧ frameOffset c k + frameLength c k < 2 ^ 31
      ∧ (frameSlice lib c k).length = frameLength c k := by
  obtain ⟨hlen, hvp, hnn, hbuf, hint⟩ := hv
  have hk1 : k < c.pointFrameLengths.length := by omega
  have hmono : frameOffset c (k + 1) ≤ frameOffset c c.numFrames := frameOffset_mono c hk
  have hstep : frameOffset c (k + 1) = frameOffset c k + frameLength c k := rfl
  have hL : c.pointFrameLengths.getD k 0 = c.pointFrameLengths[k] := by
    simp [List.getD, List.getElem?_eq_getElem hk1]
  have h1 := hnn k hk
  have h2 := hne k hk
  rw [hL] at h1 h2
  have hfl : (frameLength c k : Int) = c.pointFrameLengths[k] := by
    unfold frameLength; rw [hL]; exact Int.toNat_of_nonneg h1
  refine ⟨?_, ?_, by omega, by omega, frameSlice_length lib c k (by omega)⟩
  · rw [List.getElem?_eq_getElem hk1, hfl]
  · omega

theorem frameSurvivors_eq (lib : PCL D F) (c : PCLPointCloud D) (hv : ValidShape c)
    (hne : NoEmptyFrame c) (k : Nat) (hk : k < c.numFrames) :
    filterPointCloudPerFrame lib (frameSlice lib c k) = some (frameSurvivors lib c k) := by
  obtain ⟨_, hpos, _, _, hsl⟩ := frame_in_bounds lib c hv hne k hk
  have h := filterPointCloudPerFrame_of_pos lib (frameSlice lib c k) (by omega)
  simp [frameSurvivors, h]

theorem frameSubCloud_eq (lib : PCL D F) (c : PCLPointCloud D) (k : Nat) (vp : PCLPoint3D D)
    (h : c.viewpoints[k]? = some vp) :
    frameSubCloud lib c k = concatenateFields (frameSurvivors lib c k)
      (computeNormals lib (frameSurvivors lib c k) vp) := by
  simp [frameSubCloud, h]

/-! ## The claims -/

/-- C1: for every structurally valid multi-frame cloud without an empty frame,
`constructPointNormalCloud` returns the concatenation, in frame order `k = 0 .. numFrames-1`,
of the per-frame sub-clouds; the sub-cloud of frame `k` joins the survivors of
`filterPointCloudPerFrame` on the slice of frame `k` with the normals computed for them; and
when the normal estimator returns one normal per point, the positions and normals of the
sub-cloud are the survivors and their normals, in survivor order, and the size of the
combined cloud is the sum over the frames of the surviving point counts. -/
theorem constructPointNormalCloud_concat (lib : PCL D F) (c : PCLPointCloud D)
    (hv : ValidShape c) (hne : NoEmptyFrame c) :
    constructPointNormalCloud lib c
        = some ((List.range c.numFrames).map (frameSubCloud lib c)).flatten
      ∧ (∀ k, k < c.numFrames →
          filterPointCloudPerFrame lib (frameSlice lib c k) = some (frameSurvivors lib c k)
          ∧ ∃ vp, c.viewpoints[k]? = some vp
            ∧ frameSubCloud lib c k = concatenateFields (frameSurvivors lib c k)
                (computeNormals lib (frameSurvivors lib c k) vp)
            ∧ ((∀ t n v pts, (lib.normalEstimation t n v pts).length = pts.length) →
                (frameSubCloud lib c k).map PointNormal.toXYZ = frameSurvivors lib c k
                ∧ (frameSubCloud lib c k).map PointNormal.toNormal
                    = computeNormals lib (frameSurvivors lib c k) vp))
      ∧ ((∀ t n v pts, (lib.normalEstimation t n v pts).length = pts.length) →
          ∀ cloud, constructPointNormalCloud lib c = some cloud →
            cloud.length
              = ((List.range c.numFrames).map (fun k => (frameSurvivors lib c k).length)).sum) := by
  have hmain := constructPointNormalCloud_eq lib c hv hne
  have hvp : ∀ k, k < c.numFrames → ∃ vp, c.viewpoints[k]? = some vp := by
    intro k hk
    have hk2 : k < c.viewpoints.length := by have := hv.2.1; omega
    exact ⟨c.viewpoints[k], List.getElem?_eq_getElem hk2⟩
  have hpos : (∀ t n v pts, (lib.normalEstimation t n v pts).length = pts.length) →
      ∀ k, k < c.numFrames →
        (frameSubCloud lib c k).map PointNormal.toXYZ = frameSurvivors lib c k := by
    intro hlen k hk
    obtain ⟨vp, hvpk⟩ := hvp k hk
    rw [frameSubCloud_eq lib c k vp hvpk]
    exact concatenateFields_toXYZ _ _ (hlen _ _ _ _).symm
  refine ⟨hmain, ?_, ?_⟩
  · intro k hk
    obtain ⟨vp, hvpk⟩ := hvp k hk
    refine ⟨frameSurvivors_eq lib c hv hne k hk, vp, hvpk, frameSubCloud_eq lib c k vp hvpk, ?_⟩
    intro hlen
    refine ⟨hpos hlen k hk, ?_⟩
    rw [frameSubCloud_eq lib c k vp hvpk]
    exact concatenateFields_toNormal _ _ (hlen _ _ _ _).symm
  · intro hlen cloud hcloud
    rw [hmain] at hcloud
    have hc : cloud = subCloudsUpTo lib c c.numFrames := (Option.some.inj hcloud).symm
    rw [hc, subCloudsUpTo_length]
    congr 1
    apply List.map_congr_left
    intro k hk
    have hk1 : k < c.numFrames := List.mem_range.mp hk
    have h := congrArg List.length (hpos hlen k hk1)
    rw [List.length_map] at h
    exact h

/-- Witness for C1: the two-frame sample cloud, whose frames lose one point each. -/
theorem constructPointNormalCloud_concat_witness :
    ValidShape sampleCloud ∧ NoEmptyFrame sampleCloud
      ∧ frameSubCloud sampleLib sampleCloud 0 = [⟨1, 0, 0, -1, 0, 5, 0⟩]
      ∧ frameSubCloud sampleLib sampleCloud 1
          = [⟨2, 0, 1, -1, 0, 4, 0⟩, ⟨3, 1, 1, -2, -1, 4, 0⟩]
      ∧ constructPointNormalCloud sampleLib sampleCloud
          = some [⟨1, 0, 0, -1, 0, 5, 0⟩, ⟨2, 0, 1, -1, 0, 4, 0⟩, ⟨3, 1, 1, -2, -1, 4, 0⟩] :=
  ⟨by decide, by decide, by decide, by decide,
    (constructPointNormalCloud_concat sampleLib sampleCloud (by decide) (by decide)).1.trans
      (by decide)⟩

/-- C2: for every structurally valid multi-frame cloud without an empty frame and every
frame `k`, the running index is `P_k` (the sum of the original lengths of frames `0 .. k-1`)
when frame `k` starts; the inner loop copies exactly the buffer elements at indices
`[P_k, P_k + L_k)`, in order, and these are what `filterPointCloudPerFrame` receives; after
the frame the index is `P_k + L_k` whatever the filter kept; and after the last frame the
index is the sum of all frame lengths. -/
theorem currentPointsIdx_advances_by_original_length (lib : PCL D F) (c : PCLPointCloud D)
    (hv : ValidShape c) (hne : NoEmptyFrame c) :
    (∀ k, k < c.numFrames →
        c.pointFrameLengths[k]? = some (frameLength c k : Int)
        ∧ (frameOffset c k : Int) = (c.pointFrameLengths.take k).sum
        ∧ copyFramePoints lib c.points (frameLength c k) (frameOffset c k) []
            = some (((c.points.drop (frameOffset c k)).take (frameLength c k)).map
                (toPointXYZ lib), frameOffset c k + frameLength c k)
        ∧ (∀ i, i < frameLength c k →
            (frameSlice lib c k)[i]? = (c.points[frameOffset c k + i]?).map (toPointXYZ lib))
        ∧ ∃ cloud survivors vp,
            loopAfter lib c k = some ⟨frameOffset c k, cloud⟩
            ∧ filterPointCloudPerFrame lib (frameSlice lib c k) = some survivors
            ∧ c.viewpoints[k]? = some vp
            ∧ loopAfter lib c (k + 1)
                = some ⟨frameOffset c k + frameLength c k,
                    cloud ++ concatenateFields survivors (computeNormals lib survivors vp)⟩)
      ∧ ∃ last, lastCurrentPointsIdx lib c = some last
          ∧ (last : Int) = (c.pointFrameLengths.take c.numFrames).sum := by
  constructor
  · intro k hk
    obtain ⟨hL, hpos, hbuf, hint, hsl⟩ := frame_in_bounds lib c hv hne k hk
    have hk2 : k < c.viewpoints.length := by have := hv.2.1; omega
    refine ⟨hL, frameOffset_eq_sum c hv k (by omega),
      copyFramePoints_eq lib c.points _ _ [] hbuf hint, ?_, ?_⟩
    · intro i hi
      simp only [frameSlice, List.getElem?_map, List.getElem?_take, hi, if_true,
        List.getElem?_drop]
    · refine ⟨subCloudsUpTo lib c k, frameSurvivors lib c k, c.viewpoints[k],
        loopAfter_eq lib c hv hne k (by omega), frameSurvivors_eq lib c hv hne k hk,
        List.getElem?_eq_getElem hk2, ?_⟩
      rw [loopAfter_eq lib c hv hne (k + 1) (by omega), subCloudsUpTo_succ,
        frameSubCloud_eq lib c k _ (List.getElem?_eq_getElem hk2)]
      rfl
  · refine ⟨frameOffset c c.numFrames, ?_, frameOffset_eq_sum c hv _ (Nat.le_refl _)⟩
    simp [lastCurrentPointsIdx, loopAfter_eq lib c hv hne c.numFrames (Nat.le_refl _)]

/-- Witness for C2: on the sample cloud, whose filter removes a point of each frame, the
index after the last frame is 5 = 2 + 3. -/
theorem currentPointsIdx_advances_by_original_length_witness :
    ValidShape sampleCloud ∧ NoEmptyFrame sampleCloud
      ∧ (frameSurvivors sampleLib sampleCloud 0).length = 1
      ∧ (frameSurvivors sampleLib sampleCloud 1).length = 2
      ∧ lastCurrentPointsIdx sampleLib sampleCloud = some 5
      ∧ ∃ last, lastCurrentPointsIdx sampleLib sampleCloud = some last
          ∧ (last : Int) = ([2, 3] : List Int).sum :=
  ⟨by decide, by decide, by decide, by decide, by decide,
    (currentPointsIdx_advances_by_original_length sampleLib sampleCloud (by decide)
      (by decide)).2⟩


/-- C3, counterexample: for the three-point sample frame the multiplier handed to the filter
is 16, not 50/3, and the filter result differs from the one for the multiplier 50/3. -/
theorem stddevMulThresh_three_not_exact :
    stddevMulThresh threePoints.length = some 16
      ∧ ((16 : ℕ) : ℚ) ≠ 50 / 3
      ∧ filterPointCloudPerFrame sampleLib threePoints
          = some (sampleLib.sorXYZ (meanK 3) ((16 : ℕ) : ℚ) threePoints)
      ∧ sampleLib.sorXYZ (meanK 3) ((16 : ℕ) : ℚ) threePoints = [⟨1, 0, 0⟩]
      ∧ sampleLib.sorXYZ (meanK 3) (50 / 3) threePoints = [⟨1, 0, 0⟩, ⟨165, 0, 0⟩] := by
  refine ⟨by decide, by norm_num, rfl, ?_, ?_⟩
  · norm_num [sampleLib, threePoints, List.filter]
  · norm_num [sampleLib, threePoints, List.filter]

/-- C3, amended: for every frame with `n ≥ 1` points the multiplier that
`filterPointCloudPerFrame` hands to the filter is the integer part of `50 / n`: a natural
number `t` with `t ≤ 50 / n < t + 1`, equal to `50 / n` exactly when `n` divides 50. -/
theorem stddevMulThresh_integer_part (lib : PCL D F) (pts : List (PointXYZ F))
    (hn : 1 ≤ pts.length) :
    ∃ t : ℕ, stddevMulThresh pts.length = some t
      ∧ filterPointCloudPerFrame lib pts = some (lib.sorXYZ (meanK pts.length) (t : ℚ) pts)
      ∧ (t : ℚ) ≤ 50 / pts.length ∧ (50 : ℚ) / pts.length < t + 1
      ∧ ((t : ℚ) = 50 / pts.length ↔ pts.length ∣ 50) := by
  have hn0 : pts.length ≠ 0 := by omega
  have hq : (0 : ℚ) < pts.length := by exact_mod_cast hn
  have hfloor : ⌊((50 : ℕ) : ℚ) / pts.length⌋₊ = 50 / pts.length := Nat.floor_div_eq_div 50 _
  have hcast : ((50 : ℕ) : ℚ) = 50 := by norm_num
  refine ⟨50 / pts.length, by simp [stddevMulThresh, hn0],
    filterPointCloudPerFrame_of_pos lib pts (by omega), ?_, ?_, ?_⟩
  · rw [← hfloor, hcast]
    exact Nat.floor_le (by positivity)
  · rw [← hfloor, hcast]
    exact Nat.lt_floor_add_one _
  · constructor
    · intro h
      have h2 : ((50 / pts.length * pts.length : ℕ) : ℚ) = ((50 : ℕ) : ℚ) := by
        push_cast
        rw [h]
        field_simp
      have h3 : 50 / pts.length * pts.length = 50 := by exact_mod_cast h2
      exact ⟨50 / pts.length, by rw [Nat.mul_comm]; exact h3.symm⟩
    · intro h
      rw [Nat.cast_div h (by exact_mod_cast hn0)]
      norm_num

/-- Witness for the amended C3: the three-point sample frame. -/
theorem stddevMulThresh_integer_part_witness :
    1 ≤ threePoints.length
      ∧ ∃ t : ℕ, stddevMulThresh threePoints.length = some t
          ∧ filterPointCloudPerFrame sampleLib threePoints
              = some (sampleLib.sorXYZ (meanK threePoints.length) (t : ℚ) threePoints)
          ∧ (t : ℚ) ≤ 50 / threePoints.length ∧ (50 : ℚ) / threePoints.length < t + 1
          ∧ ((t : ℚ) = 50 / threePoints.length ↔ threePoints.length ∣ 50) :=
  ⟨by decide, stddevMulThresh_integer_part sampleLib threePoints (by decide)⟩

/-- C4: with the statistical-outlier filter of the specification as the library filter, the
per-frame pass on a frame of more than one point and the global pass (`k = 50`, `t = 3`) each
return a sub-sequence of their input: survivors keep their relative order, the output is no
longer than the input, and every surviving element is an element of the input (an oriented
point survives with its normal unchanged). -/
theorem statistical_passes_return_sublist (lib : PCL D F)
    (dist : PointXYZ F → PointXYZ F → ℚ) (stddev : List ℚ → ℚ)
    (hXYZ : ∀ k t pts, lib.sorXYZ k t pts = statisticalOutlierRemoval id dist stddev k t pts)
    (hPN : ∀ k t cloud, lib.sorPointNormal k t cloud
      = statisticalOutlierRemoval PointNormal.toXYZ dist stddev k t cloud) :
    (∀ pts : List (PointXYZ F), 1 < pts.length →
        ∃ out, filterPointCloudPerFrame lib pts = some out
          ∧ out.Sublist pts ∧ out.length ≤ pts.length ∧ ∀ p ∈ out, p ∈ pts)
      ∧ ∀ cloud : List (PointNormal F),
          globalDenoise lib cloud
              = statisticalOutlierRemoval PointNormal.toXYZ dist stddev 50 3 cloud
            ∧ (globalDenoise lib cloud).Sublist cloud
            ∧ (globalDenoise lib cloud).length ≤ cloud.length
            ∧ ∀ e ∈ globalDenoise lib cloud, e ∈ cloud := by
  constructor
  · intro pts hlen
    have hsub : (lib.sorXYZ (meanK pts.length) ((50 / pts.length : ℕ) : ℚ) pts).Sublist pts := by
      rw [hXYZ]; exact statisticalOutlierRemoval_sublist _ _ _ _ _ _
    exact ⟨_, filterPointCloudPerFrame_of_pos lib pts (by omega), hsub, hsub.length_le,
      fun p hp => hsub.subset hp⟩
  · intro cloud
    have hsub : (globalDenoise lib cloud).Sublist cloud := by
      unfold globalDenoise; rw [hPN]; exact statisticalOutlierRemoval_sublist _ _ _ _ _ _
    exact ⟨hPN _ _ _, hsub, hsub.length_le, fun e he => hsub.subset he⟩

/-- Witness for C4: the sample library built from the filter of the specification, on three
points on a line; with two neighbours and multiplier 0 the filter removes the far point. -/
theorem statistical_passes_return_sublist_witness :
    statisticalOutlierRemoval id taxicab meanAbsDev 2 0 linePoints = [⟨0, 0, 0⟩, ⟨1, 0, 0⟩]
      ∧ ∃ out, filterPointCloudPerFrame specLib linePoints = some out
          ∧ out.Sublist linePoints ∧ out.length ≤ linePoints.length
          ∧ ∀ p ∈ out, p ∈ linePoints := by
  constructor
  · simp [statisticalOutlierRemoval, meanNeighborDistance, rejectionThreshold, taxicab,
      linePoints, List.enum, List.enumFrom, List.eraseIdx, List.insertionSort,
      List.orderedInsert]
    norm_num [List.filter]
  · exact (statistical_passes_return_sublist specLib taxicab meanAbsDev (fun _ _ _ => rfl)
      (fun _ _ _ => rfl)).1 linePoints (by decide)

/-- C5, the code at a degenerate frame: for a frame with 0 points the multiplier `50 / 0` is
a division by zero, so `filterPointCloudPerFrame` has no defined result and neither has
`constructPointNormalCloud` on a cloud whose only frame is empty; for a frame with 1 point
the call is defined and returns what the library filter returns for `meanK = 0` and
multiplier 50. -/
theorem filterPointCloudPerFrame_degenerate (lib : PCL D F) (vp : PCLPoint3D D)
    (p : PointXYZ F) :
    stddevMulThresh 0 = none
      ∧ filterPointCloudPerFrame lib [] = none
      ∧ constructPointNormalCloud lib
          { numPoints := 0, numFrames := 1, points := [], pointFrameLengths := [0],
            viewpoints := [vp] } = none
      ∧ filterPointCloudPerFrame lib [p] = some (lib.sorXYZ 0 50 [p]) := by
  refine ⟨rfl, rfl, ?_, ?_⟩
  · exact constructPointNormalCloud_empty_frame lib _ 0 Nat.zero_lt_one rfl
  · rw [filterPointCloudPerFrame_of_pos lib [p] Nat.zero_lt_one]
    norm_num [meanK, castInt]

/-- C10: for every frame with `n ≥ 1` points the multiplier computed by
`filterPointCloudPerFrame` is the unsigned integer quotient `⌊50 / n⌋`; for every frame with
more than 50 points it is 0, and the rejection threshold `μ + 0·σ` is then `μ`, whatever `σ`
is. -/
theorem stddevMulThresh_eq_floor (lib : PCL D F) (pts : List (PointXYZ F))
    (hn : 1 ≤ pts.length) :
    stddevMulThresh pts.length = some ⌊(50 : ℚ) / pts.length⌋₊
      ∧ filterPointCloudPerFrame lib pts
          = some (lib.sorXYZ (meanK pts.length) ((⌊(50 : ℚ) / pts.length⌋₊ : ℕ) : ℚ) pts)
      ∧ (50 < pts.length →
          stddevMulThresh pts.length = some 0
          ∧ filterPointCloudPerFrame lib pts = some (lib.sorXYZ (meanK pts.length) 0 pts)
          ∧ ∀ μ σ : ℚ, rejectionThreshold μ σ ((0 : ℕ) : ℚ) = μ) := by
  have hn0 : pts.length ≠ 0 := by omega
  have hfloor : ⌊(50 : ℚ) / pts.length⌋₊ = 50 / pts.length := by
    have h := Nat.floor_div_eq_div (α := ℚ) 50 pts.length
    simpa using h
  have hfilter := filterPointCloudPerFrame_of_pos lib pts (by omega)
  refine ⟨by simp [stddevMulThresh, hn0, hfloor], by rw [hfloor]; exact hfilter, ?_⟩
  intro h50
  have hz : 50 / pts.length = 0 := Nat.div_eq_of_lt h50
  refine ⟨by simp [stddevMulThresh, hn0, hz], ?_, ?_⟩
  · rw [hfilter, hz]; simp
  · intro μ σ; simp [rejectionThreshold]

/-- Witness for C10: the three-point sample frame. -/
theorem stddevMulThresh_eq_floor_witness :
    1 ≤ threePoints.length
      ∧ stddevMulThresh threePoints.length = some ⌊(50 : ℚ) / threePoints.length⌋₊ :=
  ⟨by decide, (stddevMulThresh_eq_floor sampleLib threePoints (by decide)).1⟩


/-- C6: for every structurally valid input without an empty frame,
`constructPointCloudWithNormalsForTesting` returns a structure whose `points` and `normals`
are the positions and the normals of the combined oriented cloud, element by element in the
same order, whose `numPoints` is the size of that cloud (the `int` cast is exact below
`2 ^ 31`, in particular whenever the per-frame filter never lengthens a cloud), and whose
`numFrames`, `pointFrameLengths` and `viewpoints` are those of the input. -/
theorem forTesting_output (lib : PCL D F) (c : PCLPointCloud D)
    (hv : ValidShape c) (hne : NoEmptyFrame c) :
    ∃ (cloud : List (PointNormal F)) (out : PCLPointNormalCloud D),
      constructPointNormalCloud lib c = some cloud
        ∧ constructPointCloudWithNormalsForTesting lib c = some out
        ∧ (cloud.length < 2 ^ 31 → out.numPoints = (cloud.length : Int))
        ∧ ((∀ m t pts, (lib.sorXYZ m t pts).length ≤ pts.length) →
            out.numPoints = (cloud.length : Int))
        ∧ out.points.length = cloud.length ∧ out.normals.length = cloud.length
        ∧ (∀ (i : Nat) (e : PointNormal F), cloud[i]? = some e →
            out.points[i]? = some (positionOf lib e) ∧ out.normals[i]? = some (normalOf lib e))
        ∧ out.numFrames = c.numFrames ∧ out.pointFrameLengths = c.pointFrameLengths
        ∧ out.viewpoints = c.viewpoints := by
  have hmain := constructPointNormalCloud_eq lib c hv hne
  have hcast : ∀ n : Nat, n < 2 ^ 31 → castInt n = (n : Int) := by
    intro n h
    have h1 : n % 2 ^ 32 = n := Nat.mod_eq_of_lt (by omega)
    unfold castInt
    rw [h1, if_pos h]
  refine ⟨subCloudsUpTo lib c c.numFrames,
    { numPoints := castInt (subCloudsUpTo lib c c.numFrames).length
      points := (subCloudsUpTo lib c c.numFrames).map (positionOf lib)
      normals := (subCloudsUpTo lib c c.numFrames).map (normalOf lib)
      numFrames := c.numFrames
      pointFrameLengths := c.pointFrameLengths
      viewpoints := c.viewpoints }, hmain, ?_, ?_, ?_, ?_, ?_, ?_, rfl, rfl, rfl⟩
  · simp only [constructPointCloudWithNormalsForTesting, hmain]
  · intro h; exact hcast _ h
  · intro hshrink
    have h1 := subCloudsUpTo_length_le lib c hshrink c.numFrames
    have h2 := hv.2.2.2.2
    exact hcast _ (by omega)
  · simp
  · simp
  · intro i e he
    simp [he]

/-- Witness for C6: the sample cloud. -/
theorem forTesting_output_witness :
    ValidShape sampleCloud ∧ NoEmptyFrame sampleCloud
      ∧ constructPointCloudWithNormalsForTesting sampleLib sampleCloud
          = some
              { numPoints := 3
                points := [⟨1, 0, 0⟩, ⟨2, 0, 1⟩, ⟨3, 1, 1⟩]
                normals := [⟨-1, 0, 5⟩, ⟨-1, 0, 4⟩, ⟨-2, -1, 4⟩]
                numFrames := 2
                pointFrameLengths := [2, 3]
                viewpoints := [⟨0, 0, 5⟩, ⟨1, 0, 5⟩] }
      ∧ ∃ (cloud : List (PointNormal ℤ)) (out : PCLPointNormalCloud ℤ),
          constructPointNormalCloud sampleLib sampleCloud = some cloud
            ∧ constructPointCloudWithNormalsForTesting sampleLib sampleCloud = some out
            ∧ out.points.length = cloud.length ∧ out.normals.length = cloud.length
            ∧ out.numFrames = 2 ∧ out.pointFrameLengths = [2, 3]
            ∧ out.viewpoints = [⟨0, 0, 5⟩, ⟨1, 0, 5⟩] :=
  ⟨by decide, by decide, by decide,
    (forTesting_output sampleLib sampleCloud (by decide) (by decide)).imp fun _ h =>
      h.imp fun _ h => ⟨h.1, h.2.1, h.2.2.2.2.1, h.2.2.2.2.2.1, h.2.2.2.2.2.2.2⟩⟩

/-- C7: for every structurally valid input without an empty frame for which the
reconstructor returns triangles, `performSurfaceReconstruction` returns a mesh whose
`numPoints` is the number of reconstructed vertices, copied in order, whose `numFaces` is the
number of reconstructed polygons, whose face `i` carries the three vertex indices of polygon
`i` unchanged, and whose `v1`, `v2`, `v3` are all below `numPoints` whenever the
reconstructor's indices are in range. -/
theorem performSurfaceReconstruction_mesh (lib : PCL D F) (c : PCLPointCloud D)
    (hv : ValidShape c) (hne : NoEmptyFrame c)
    (htri : ∀ p ∈ (poissonReconstruct lib
        (globalDenoise lib (subCloudsUpTo lib c c.numFrames))).polygons, p.vertices.length = 3) :
    ∃ (cloud : List (PointNormal F)) (m : PCLMesh D),
      constructPointNormalCloud lib c = some cloud
        ∧ performSurfaceReconstruction lib c = some m
        ∧ m.numPoints = (poissonReconstruct lib (globalDenoise lib cloud)).cloud.length
        ∧ m.points = (poissonReconstruct lib (globalDenoise lib cloud)).cloud.map (toPCLPoint3D lib)
        ∧ m.points.length = m.numPoints
        ∧ m.numFaces = (poissonReconstruct lib (globalDenoise lib cloud)).polygons.length
        ∧ m.polygons.length = m.numFaces
        ∧ (∀ (i : Nat) (p : Vertices),
            (poissonReconstruct lib (globalDenoise lib cloud)).polygons[i]? = some p →
            ∃ f, m.polygons[i]? = some f ∧ p.vertices = [f.v1, f.v2, f.v3])
        ∧ ((∀ p ∈ (poissonReconstruct lib (globalDenoise lib cloud)).polygons,
              ∀ v ∈ p.vertices, v < (poissonReconstruct lib (globalDenoise lib cloud)).cloud.length) →
            ∀ f ∈ m.polygons, f.v1 < m.numPoints ∧ f.v2 < m.numPoints ∧ f.v3 < m.numPoints) := by
  have hmain := constructPointNormalCloud_eq lib c hv hne
  have hconv := convertPolygons_eq _ htri
  have hface : ∀ p : Vertices, p.vertices.length = 3 →
      p.vertices = [(triangleOf p).v1, (triangleOf p).v2, (triangleOf p).v3] := by
    intro p hp
    obtain ⟨vs⟩ := p
    match vs, hp with
    | [a, b, d], _ => rfl
  refine ⟨subCloudsUpTo lib c c.numFrames,
    { numPoints := (poissonReconstruct lib
        (globalDenoise lib (subCloudsUpTo lib c c.numFrames))).cloud.length
      numFaces := (poissonReconstruct lib
        (globalDenoise lib (subCloudsUpTo lib c c.numFrames))).polygons.length
      points := (poissonReconstruct lib
        (globalDenoise lib (subCloudsUpTo lib c c.numFrames))).cloud.map (toPCLPoint3D lib)
      polygons := (poissonReconstruct lib
        (globalDenoise lib (subCloudsUpTo lib c c.numFrames))).polygons.map triangleOf },
    hmain, ?_, rfl, rfl, ?_, rfl, ?_, ?_, ?_⟩
  · simp only [performSurfaceReconstruction, hmain, hconv]
  · simp
  · simp
  · intro i p hp
    refine ⟨triangleOf p, ?_, hface p (htri p (List.getElem?_mem hp))⟩
    simp [hp]
  · intro hrange f hf
    obtain ⟨p, hp, rfl⟩ := List.mem_map.mp hf
    have hvs := hface p (htri p hp)
    have hin := hrange p hp
    rw [hvs] at hin
    exact ⟨hin _ (by simp), hin _ (by simp), hin _ (by simp)⟩

/-- Witness for C7: the sample cloud, whose reconstructed mesh has three vertices and the
triangle 0, 1, 2. -/
theorem performSurfaceReconstruction_mesh_witness :
    ValidShape sampleCloud ∧ NoEmptyFrame sampleCloud
      ∧ performSurfaceReconstruction sampleLib sampleCloud
          = some ⟨3, 1, [⟨1, 0, 0⟩, ⟨2, 0, 1⟩, ⟨3, 1, 1⟩], [⟨0, 1, 2⟩]⟩
      ∧ ∃ (cloud : List (PointNormal ℤ)) (m : PCLMesh ℤ),
          constructPointNormalCloud sampleLib sampleCloud = some cloud
            ∧ performSurfaceReconstruction sampleLib sampleCloud = some m
            ∧ m.points.length = m.numPoints ∧ m.polygons.length = m.numFaces := by
  have htri : ∀ p ∈ (poissonReconstruct sampleLib
      (globalDenoise sampleLib (subCloudsUpTo sampleLib sampleCloud sampleCloud.numFrames))).polygons,
      p.vertices.length = 3 := by
    intro p hp
    simp only [poissonReconstruct, sampleLib] at hp
    split at hp
    · simp only [List.mem_singleton] at hp; rw [hp]; rfl
    · simp at hp
  exact ⟨by decide, by decide, by decide,
    (performSurfaceReconstruction_mesh sampleLib sampleCloud (by decide) (by decide) htri).imp
      fun _ h => h.imp fun _ h => ⟨h.1, h.2.1, h.2.2.2.2.1, h.2.2.2.2.2.2.1⟩⟩

/-- C8, counterexample: on the cloud whose only frame is empty `performSurfaceReconstruction`
has no defined result (the multiplier is a division by zero), and on the cloud without frames
it returns whatever the reconstructor returns for the empty cloud, here a mesh with one
vertex: nothing in the wrapper guards the empty cloud. -/
theorem performSurfaceReconstruction_unguarded :
    performSurfaceReconstruction sampleLib emptyFrameCloud = none
      ∧ constructPointNormalCloud oneVertexLib noFramesCloud = some []
      ∧ performSurfaceReconstruction oneVertexLib noFramesCloud
          = some ⟨1, 0, [⟨0, 0, 0⟩], []⟩ := by
  refine ⟨?_, rfl, rfl⟩
  have h : constructPointNormalCloud sampleLib emptyFrameCloud = none :=
    constructPointNormalCloud_empty_frame sampleLib emptyFrameCloud 0 (by decide) rfl
  simp [performSurfaceReconstruction, h]

/-- C8, amended: for every structurally valid input without an empty frame whose frames
keep no point after per-frame denoising (in particular for an input without frames), the
combined oriented cloud is empty and `performSurfaceReconstruction`, which has no guard of
its own, hands the globally filtered empty cloud to the reconstructor and returns the
reconstructor's mesh; this is the mesh with 0 vertices and 0 faces whenever the reconstructor
returns an empty mesh for that cloud. -/
theorem performSurfaceReconstruction_empty_cloud (lib : PCL D F) (c : PCLPointCloud D)
    (hv : ValidShape c) (hne : NoEmptyFrame c)
    (hrem : ∀ k, k < c.numFrames → frameSurvivors lib c k = []) :
    constructPointNormalCloud lib c = some []
      ∧ performSurfaceReconstruction lib c
          = (convertPolygons (poissonReconstruct lib (globalDenoise lib [])).polygons).map
              (fun meshPolygons =>
                { numPoints := (poissonReconstruct lib (globalDenoise lib [])).cloud.length
                  numFaces := (poissonReconstruct lib (globalDenoise lib [])).polygons.length
                  points := (poissonReconstruct lib (globalDenoise lib [])).cloud.map
                    (toPCLPoint3D lib)
                  polygons := meshPolygons })
      ∧ (poissonReconstruct lib (globalDenoise lib []) = ⟨[], []⟩ →
          performSurfaceReconstruction lib c = some ⟨0, 0, [], []⟩) := by
  have hsub : ∀ k, k ≤ c.numFrames → subCloudsUpTo lib c k = [] := by
    intro k
    induction k with
    | zero => intro _; rfl
    | succ k ih =>
      intro hk
      have hfr : frameSubCloud lib c k = [] := by
        unfold frameSubCloud
        cases c.viewpoints[k]? with
        | none => rfl
        | some vp =>
          simp only [hrem k (by omega)]
          unfold concatenateFields
          split <;> simp
      rw [subCloudsUpTo_succ, ih (by omega), hfr]
      rfl
  have hc : constructPointNormalCloud lib c = some [] := by
    rw [constructPointNormalCloud_eq lib c hv hne, hsub c.numFrames (Nat.le_refl _)]
  refine ⟨hc, ?_, ?_⟩
  · simp only [performSurfaceReconstruction, hc]
    cases convertPolygons (poissonReconstruct lib (globalDenoise lib [])).polygons <;> rfl
  · intro hlib
    simp [performSurfaceReconstruction, hc, hlib, convertPolygons]

/-- Witness for the amended C8: the one-point frame that the sample filter removes. -/
theorem performSurfaceReconstruction_empty_cloud_witness :
    ValidShape removedCloud ∧ NoEmptyFrame removedCloud
      ∧ (∀ k, k < removedCloud.numFrames → frameSurvivors sampleLib removedCloud k = [])
      ∧ poissonReconstruct sampleLib (globalDenoise sampleLib []) = ⟨[], []⟩
      ∧ performSurfaceReconstruction sampleLib removedCloud = some ⟨0, 0, [], []⟩ :=
  ⟨by decide, by decide, by decide, by decide,
    (performSurfaceReconstruction_empty_cloud sampleLib removedCloud (by decide) (by decide)
      (by decide)).2.2 (by decide)⟩

/-- C9: with the normal estimator of the specification as the library estimator, for every
structurally valid input without an empty frame the combined cloud is the concatenation of
the per-frame sub-clouds, and in the sub-cloud of frame `k` the positions are the surviving
points of that frame in order, one normal is paired with each, and the dot product of the
normal with `viewpoints[k] - p` is at least 0. -/
theorem normals_toward_frame_viewpoint [LinearOrderedRing F] (lib : PCL D F)
    (c : PCLPointCloud D) (planeNormal : Nat → List (PointXYZ F) → Nat → Normal F)
    (hv : ValidShape c) (hne : NoEmptyFrame c)
    (hest : ∀ t k vp pts, lib.normalEstimation t k vp pts = estimateNormals planeNormal k vp pts) :
    constructPointNormalCloud lib c
        = some ((List.range c.numFrames).map (frameSubCloud lib c)).flatten
      ∧ ∀ k, k < c.numFrames →
          ∃ vp, c.viewpoints[k]? = some vp
            ∧ (frameSubCloud lib c k).map PointNormal.toXYZ = frameSurvivors lib c k
            ∧ (frameSubCloud lib c k).length = (frameSurvivors lib c k).length
            ∧ ∀ e ∈ frameSubCloud lib c k,
                0 ≤ dotToward (lib.narrow vp.x, lib.narrow vp.y, lib.narrow vp.z)
                  e.toXYZ e.toNormal := by
  refine ⟨constructPointNormalCloud_eq lib c hv hne, ?_⟩
  intro k hk
  have hk2 : k < c.viewpoints.length := by have := hv.2.1; omega
  have hvpk : c.viewpoints[k]? = some c.viewpoints[k] := List.getElem?_eq_getElem hk2
  have hlen : (frameSurvivors lib c k).length
      = (computeNormals lib (frameSurvivors lib c k) c.viewpoints[k]).length := by
    simp only [computeNormals, hest, estimateNormals_length]
  have hxyz : (frameSubCloud lib c k).map PointNormal.toXYZ = frameSurvivors lib c k := by
    rw [frameSubCloud_eq lib c k _ hvpk]
    exact concatenateFields_toXYZ _ _ hlen
  refine ⟨c.viewpoints[k], hvpk, hxyz, ?_, ?_⟩
  · have h := congrArg List.length hxyz
    rw [List.length_map] at h
    exact h
  · intro e he
    rw [frameSubCloud_eq lib c k _ hvpk] at he
    have hmem := concatenateFields_mem _ _ e he
    simp only [computeNormals, hest] at hmem
    exact estimateNormals_oriented planeNormal 10 _ _ _ hmem

/-- Witness for C9: the sample cloud, with a plane normal that the estimator has to flip. -/
theorem normals_toward_frame_viewpoint_witness :
    ValidShape sampleCloud ∧ NoEmptyFrame sampleCloud
      ∧ frameSubCloud orientedLib sampleCloud 1
          = [⟨2, 0, 1, 0, 0, 1, 0⟩, ⟨3, 1, 1, 0, 0, 1, 0⟩]
      ∧ ∀ k, k < 2 →
          ∃ vp, sampleCloud.viewpoints[k]? = some vp
            ∧ (frameSubCloud orientedLib sampleCloud k).map PointNormal.toXYZ
                = frameSurvivors orientedLib sampleCloud k
            ∧ (frameSubCloud orientedLib sampleCloud k).length
                = (frameSurvivors orientedLib sampleCloud k).length
            ∧ ∀ e ∈ frameSubCloud orientedLib sampleCloud k,
                0 ≤ dotToward
                  (orientedLib.narrow vp.x, orientedLib.narrow vp.y, orientedLib.narrow vp.z)
                  e.toXYZ e.toNormal :=
  ⟨by decide, by decide, by decide,
    (normals_toward_frame_viewpoint orientedLib sampleCloud (fun _ _ _ => ⟨0, 0, -1, 0⟩)
      (by decide) (by decide) (fun _ _ _ _ => rfl)).2⟩

end Reconstruction
